import Mathlib

/-!
Verification development for `csv_to_pdf.py`: a shallow embedding of the
layout planner, content normalizer and document composer of the script,
together with theorems about the claims of its specification.

Strings are modelled as `List Char` (the script only manipulates ASCII
markers, whitespace and markup characters, so an ASCII model of Python's
`lower`/`strip` is faithful on every input the claims concern).
Numeric page/column widths are modelled as exact rationals `ℚ`.
Fallible code (code that can raise) returns `Option`.
-/

set_option autoImplicit false

namespace CsvToPdf

/-- ASCII model of Python whitespace (`\s` and `str.strip`):
space, tab, newline, carriage return, vertical tab, form feed. -/
def isPySpace (c : Char) : Bool :=
  c == ' ' || c == '\t' || c == '\n' || c == '\r' || c == '\x0b' || c == '\x0c'

/-- ASCII model of `str.lower` on one character. -/
def pyLowerChar (c : Char) : Char :=
  if 'A' ≤ c ∧ c ≤ 'Z' then Char.ofNat (c.toNat + 32) else c

/-- ASCII model of Python `str.lower()`. -/
def pyLower (s : List Char) : List Char :=
  s.map pyLowerChar

/-- Model of Python `str.strip()`: remove leading and trailing whitespace. -/
def pyStrip (s : List Char) : List Char :=
  ((s.dropWhile isPySpace).reverse.dropWhile isPySpace).reverse

/-- Does the string start with a decimal digit?  This is exactly the
condition under which the regex `^\d+[\s.)-]*` matches. -/
def startsWithDigit (s : List Char) : Bool :=
  match s with
  | [] => false
  | c :: _ => c.isDigit

/-- A character of the regex class `[\s.)-]`. -/
def isEnumPunct (c : Char) : Bool :=
  isPySpace c || c == '.' || c == ')' || c == '-'

/-- Model of `re.sub(r'^\d+[\s.)-]*', '', text)`: when the string starts
with a digit, remove the maximal run of digits and then the maximal run of
`[\s.)-]` characters; otherwise the regex does not match and the string is
returned unchanged. -/
def stripLeadingEnum (s : List Char) : List Char :=
  if startsWithDigit s then
    (s.dropWhile Char.isDigit).dropWhile isEnumPunct
  else s

/-- Function `clean_particulars` (csv_to_pdf.py lines 365-367):
`re.sub(r'^\d+[\s.)-]*', '', str(text)).strip()`. -/
def clean_particulars (s : List Char) : List Char :=
  pyStrip (stripLeadingEnum s)

/-! ## Layout planner -/

/-- The per-column raw width estimates of `calculate_col_widths`
(csv_to_pdf.py lines 112-120): for each column index of the first row,
`max(max_char * 6, min_width)` where `max_char` is the length of the
longest cell among the rows that have that column. -/
def rawColWidths (data : List (List (List Char))) (min_width : ℚ) : List ℚ :=
  (List.range (data.headD []).length).map (fun i =>
    let max_char : ℕ := (data.filterMap (fun row => row[i]?)).foldl
      (fun m cell => max m cell.length) 0
    max ((max_char : ℚ) * 6) min_width)

/-- Function `calculate_col_widths(data, page_width, min_width=50)`
(csv_to_pdf.py lines 103-127).  The function raises on degenerate input,
modelled by `none`: `data[0]` raises `IndexError` when `data` is empty, and
`extra = (available_width - total_est) / num_cols` raises
`ZeroDivisionError` when the first row has zero columns (which forces
`total_est = 0 < available_width` whenever `available_width > 0`). -/
def calculate_col_widths (data : List (List (List Char))) (page_width : ℚ)
    (min_width : ℚ) : Option (List ℚ) :=
  match data with
  | [] => none
  | first :: _ =>
    let available_width := page_width - 80
    let num_cols := first.length
    let col_widths := rawColWidths data min_width
    let total_est := col_widths.sum
    if total_est < available_width then
      if num_cols = 0 then none
      else some (col_widths.map (fun w => w + (available_width - total_est) / (num_cols : ℚ)))
    else some col_widths

/-- Width of an A4 page in points: `210 * mm` with `mm = 72 / 25.4`. -/
def A4_width : ℚ := 75600 / 127

/-- Height of an A4 page in points: `297 * mm` with `mm = 72 / 25.4`. -/
def A4_height : ℚ := 106920 / 127

/-- The page geometry and column-width plan computed by
`generate_pdf_report` before the document is assembled. -/
structure DocGeometry where
  pageWidth : ℚ
  pageHeight : ℚ
  leftMargin : ℚ
  rightMargin : ℚ
  topMargin : ℚ
  bottomMargin : ℚ
  colWidths : List ℚ
  deriving DecidableEq

/-- The page-size and column-width computation of `generate_pdf_report`
(csv_to_pdf.py lines 284-328).  In the individual branch the table data is
not consulted at all; in the full-report branch the widths come from
`calculate_col_widths` with `page_width = 8.5 * inch = 612` and the page
grows to fit the table (`total_w = sum + 80`) and the row count
(`est_height = len(data) * 30 + 400`).  All four margins are 40 in the
`SimpleDocTemplate` call (line 327). -/
def planLayout (data : List (List (List Char))) (is_individual : Bool) :
    Option DocGeometry :=
  if is_individual then
    let available_width := A4_width - 80
    some { pageWidth := A4_width, pageHeight := A4_height,
           leftMargin := 40, rightMargin := 40, topMargin := 40, bottomMargin := 40,
           colWidths := [available_width * (8/100), available_width * (57/100),
                         available_width * (35/100)] }
  else
    (calculate_col_widths data 612 50).map (fun col_widths =>
      let total_w := col_widths.sum + 80
      let page_width := if total_w > 612 then total_w else (612 : ℚ)
      let est_height := (data.length : ℚ) * 30 + 400
      let page_height := if est_height > 792 then est_height else (792 : ℚ)
      { pageWidth := page_width, pageHeight := page_height,
        leftMargin := 40, rightMargin := 40, topMargin := 40, bottomMargin := 40,
        colWidths := col_widths })

/-! ## Content normalizer and document tables -/

/-- Is `needle` a leading segment of `hay`? -/
def leadsList : List Char → List Char → Bool
  | [], _ => true
  | _ :: _, [] => false
  | a :: as, b :: bs => a == b && leadsList as bs

/-- Model of Python's substring test `needle in hay`
(contiguous occurrence). -/
def occursIn (needle : List Char) : List Char → Bool
  | [] => leadsList needle []
  | c :: t => leadsList needle (c :: t) || occursIn needle t

/-- The `nan` normalization applied to individual-record cell values and
the footer mobile field (csv_to_pdf.py lines 454 and 478):
`if val.lower() == 'nan': val = ""`. -/
def normalizeVal (val : List Char) : List Char :=
  if pyLower val = "nan".data then [] else val

/-- The response-cell value of one individual-record field
(csv_to_pdf.py lines 476-482): normalize the raw value, then force the
constant `"Yes"` when the cleaned label contains `"I hereby certify"`. -/
def renderResponse (schema rawVal : List Char) : List Char :=
  let p_clean := clean_particulars schema
  let val := normalizeVal rawVal
  if occursIn ("I hereby certify".data) p_clean then "Yes".data else val

/-- The `safe_text` computation of `get_wrapped_text`
(csv_to_pdf.py line 278): the four sequential `str.replace` calls
`&`→`&amp;`, `<`→`&lt;`, `>`→`&gt;`, `\n`→`<br/>`, in that order.
Each needle is a single character, so one `str.replace` is a per-character
expansion of the original string. -/
def replaceChar (c : Char) (r : List Char) (l : List Char) : List Char :=
  (l.map (fun x => if x = c then r else [x])).flatten

/-- Function `get_wrapped_text` (csv_to_pdf.py lines 270-279), restricted to the
text transformation it performs before wrapping in a `Paragraph`. -/
def get_wrapped_text (text : List Char) : List Char :=
  replaceChar '\n' ("<br/>".data)
    (replaceChar '>' ("&gt;".data)
      (replaceChar '<' ("&lt;".data)
        (replaceChar '&' ("&amp;".data) text)))

/-- One-pass specification of the escaping: every character is expanded
independently, so no inserted escape is itself re-escaped. -/
def escapeSpec (l : List Char) : List Char :=
  (l.map (fun c =>
    if c = '&' then "&amp;".data
    else if c = '<' then "&lt;".data
    else if c = '>' then "&gt;".data
    else if c = '\n' then "<br/>".data
    else [c])).flatten

/-! ## Field matcher -/

/-- The dict `cols_map` built by `{c.lower().strip(): c for c in schemas}`
(csv_to_pdf.py line 428), modelled as an association list with Python
dict semantics: keys keep first-insertion order, a repeated key keeps its
position and takes the later value. -/
def buildColsMap (schemas : List (List Char)) : List (List Char × List Char) :=
  schemas.foldl (fun m c =>
    let key := pyStrip (pyLower c)
    if m.any (fun p => p.1 == key) then
      m.map (fun p => if p.1 == key then (key, c) else p)
    else m ++ [(key, c)]) []

/-- Function `find_key(keywords)` (csv_to_pdf.py lines 430-435): for each keyword in
order, scan the column map in order and return the original column name of
the first lowered column name that contains the keyword; `None` when no
keyword matches any column. -/
def find_key (cols_map : List (List Char × List Char))
    (keywords : List (List Char)) : Option (List Char) :=
  keywords.findSome? (fun k =>
    (cols_map.find? (fun p => occursIn k p.1)).map Prod.snd)

/-- Keyword list for the name role (csv_to_pdf.py line 437). -/
def nameKeywords : List (List Char) :=
  ["name :", "candidate name", "name of candidate", "name"].map String.data

/-- Keyword list for the venue role (csv_to_pdf.py line 438). -/
def venueKeywords : List (List Char) :=
  ["name of exam venue", "venue", "center"].map String.data

/-- Keyword list for the date role (csv_to_pdf.py line 439). -/
def dateKeywords : List (List Char) :=
  ["timestamp", "date"].map String.data

/-- Keyword list for the signature role (csv_to_pdf.py line 440). -/
def signatureKeywords : List (List Char) :=
  ["signature", "upload signature", "observer signature"].map String.data

/-- Keyword list for the mobile role (csv_to_pdf.py line 441). -/
def mobileKeywords : List (List Char) :=
  ["mobile", "phone", "contact"].map String.data

/-- Role column `col_name = find_key([...])` (csv_to_pdf.py line 437). -/
def col_name (schemas : List (List Char)) : Option (List Char) :=
  find_key (buildColsMap schemas) nameKeywords

/-- Role column `col_venue = find_key([...])` (csv_to_pdf.py line 438). -/
def col_venue (schemas : List (List Char)) : Option (List Char) :=
  find_key (buildColsMap schemas) venueKeywords

/-- Role column `col_date = find_key([...])` (csv_to_pdf.py line 439). -/
def col_date (schemas : List (List Char)) : Option (List Char) :=
  find_key (buildColsMap schemas) dateKeywords

/-- Role column `col_signature = find_key([...])` (csv_to_pdf.py line 440). -/
def col_signature (schemas : List (List Char)) : Option (List Char) :=
  find_key (buildColsMap schemas) signatureKeywords

/-- Role column `col_mobile = find_key([...])` (csv_to_pdf.py line 441). -/
def col_mobile (schemas : List (List Char)) : Option (List Char) :=
  find_key (buildColsMap schemas) mobileKeywords

/-- Row access `row[c]`: a data row is modelled as the list of its cell strings
aligned with the schema (column-name) list; access by column name looks up
the value at the column's index. -/
def lookupVal (schemas vals : List (List Char)) (c : List Char) : List Char :=
  match schemas.findIdx? (· == c) with
  | some i => vals.getD i []
  | none => []

/-- Footer access `str(row[col]) if col else ""` — the footer fields name, venue, date
(csv_to_pdf.py lines 448-450): a matched role yields the row's value for
that column, an unmatched role yields the empty string. -/
def footerField (schemas vals : List (List Char)) (col : Option (List Char)) :
    List Char :=
  match col with
  | some c => lookupVal schemas vals c
  | none => []

/-- The footer mobile field (csv_to_pdf.py lines 451-454): like the other
footer fields but with the `nan` normalization applied afterwards. -/
def footerMobileField (schemas vals : List (List Char)) : List Char :=
  normalizeVal (footerField schemas vals (col_mobile schemas))

/-! ## Individual-record table -/

/-- The list `[col_name, col_venue, col_date, col_signature, col_mobile]`
used by the exclusion test of the body loop (csv_to_pdf.py line 473). -/
def excludedCols (schemas : List (List Char)) : List (Option (List Char)) :=
  [col_name schemas, col_venue schemas, col_date schemas,
   col_signature schemas, col_mobile schemas]

/-- Test `schema in [col_name, col_venue, col_date, col_signature, col_mobile]`
(csv_to_pdf.py line 473). -/
def isExcluded (schemas : List (List Char)) (c : List Char) : Bool :=
  (excludedCols schemas).any (fun o => o == some c)

/-- The schemas that survive the `continue` of the body loop
(csv_to_pdf.py lines 472-474). -/
def bodySchemas (schemas : List (List Char)) : List (List Char) :=
  schemas.filter (fun c => !(isExcluded schemas c))

/-- One appended body row `[p_sl, p_particular, p_response]`
(csv_to_pdf.py lines 484-490) for the field with zero-based position `j`
among the included schemas, so `counter = j + 1`. -/
def individualRow (schemas vals : List (List Char)) (j : ℕ)
    (schema : List Char) : List (List Char) :=
  [(Nat.repr (j + 1)).data,
   get_wrapped_text (clean_particulars schema),
   get_wrapped_text (renderResponse schema (lookupVal schemas vals schema))]

/-- The header row `["Sl. No.", "Particulars", "Response"]`
(csv_to_pdf.py line 469). -/
def individualHeader : List (List Char) :=
  ["Sl. No.", "Particulars", "Response"].map String.data

/-- The `table_data` built for one individual record
(csv_to_pdf.py lines 469-491). -/
def individualTable (schemas vals : List (List Char)) :
    List (List (List Char)) :=
  individualHeader ::
    ((bodySchemas schemas).enum.map (fun p => individualRow schemas vals p.1 p.2))

/-! ## Full-report matrix table -/

/-- The matrix header `["Sl. No.", "Particulars", "Rec 1", ..., "Rec N"]`
(csv_to_pdf.py line 406), `N` the number of records. -/
def matrixHeader (n : ℕ) : List (List Char) :=
  "Sl. No.".data :: "Particulars".data ::
    (List.range n).map (fun i => "Rec ".data ++ (Nat.repr (i + 1)).data)

/-- Row `j` of the matrix body (csv_to_pdf.py lines 408-414): the
transposed row for original column `j` is `[column_name, v_1, ..., v_N]`,
and the appended matrix row is
`[str(j+1), clean_particulars(column_name)] + [v_1, ..., v_N]`.
The record values are passed through as raw strings. -/
def matrixBodyRow (columns : List (List Char))
    (records : List (List (List Char))) (j : ℕ) : List (List Char) :=
  (Nat.repr (j + 1)).data :: clean_particulars (columns.getD j []) ::
    records.map (fun r => r.getD j [])

/-- The `matrix_table` of the full report (csv_to_pdf.py lines 399-414):
header row followed by one body row per original column. -/
def matrixTable (columns : List (List Char))
    (records : List (List (List Char))) : List (List (List Char)) :=
  matrixHeader records.length ::
    (List.range columns.length).map (matrixBodyRow columns records)

/-! ## Composer error containment -/

/-- Observable outcome of one `generate_pdf_report` call: either the
document was built, or the `except` arm logged
`f"Error generating PDF {output_path}: {e}"` (csv_to_pdf.py lines 362-363)
and the call returned normally. -/
inductive GenResult where
  | ok
  | errorLogged (outputPath : List Char)
  deriving DecidableEq

/-- Function `generate_pdf_report` (csv_to_pdf.py lines 281-363) as seen by its
caller.  The whole body sits inside `try: ... except Exception as e:`;
the effectful body (geometry, flowables, `doc.build`) is abstracted as an
`Except` outcome, and the handler turns any exception into a logged error
naming the intended output path.  The function is total: no exception
reaches the caller. -/
def generate_pdf_report (buildOutcome : Except (List Char) Unit)
    (output_path : List Char) : GenResult :=
  match buildOutcome with
  | .ok _ => .ok
  | .error _ => .errorLogged output_path

/-- The per-row batch loop of `convert_file_to_pdf`
(csv_to_pdf.py lines 447-501): one `generate_pdf_report` call per record,
each with its own build outcome and output path. -/
def batchGenerate (jobs : List (Except (List Char) Unit × List Char)) :
    List GenResult :=
  jobs.map (fun j => generate_pdf_report j.1 j.2)

/-! ## Helper lemmas -/

lemma pyStrip_eq_rdropWhile (s : List Char) :
    pyStrip s = List.rdropWhile isPySpace (List.dropWhile isPySpace s) := rfl

lemma dropWhile_pyStrip (s : List Char) :
    List.dropWhile isPySpace (pyStrip s) = pyStrip s := by
  rw [pyStrip_eq_rdropWhile]
  set m := List.dropWhile isPySpace s with hm
  have hmself : List.dropWhile isPySpace m = m := List.dropWhile_idempotent _ _
  rw [List.dropWhile_eq_self_iff] at hmself ⊢
  intro hl
  have hpre := List.rdropWhile_prefix isPySpace m
  have hlen : 0 < m.length := lt_of_lt_of_le hl hpre.length_le
  have hg : (List.rdropWhile isPySpace m).get ⟨0, hl⟩ = m.get ⟨0, hlen⟩ := by
    simpa using hpre.getElem (n := 0) hl
  rw [hg]
  exact hmself hlen

lemma pyStrip_idem (s : List Char) : pyStrip (pyStrip s) = pyStrip s := by
  conv_lhs => rw [pyStrip_eq_rdropWhile, dropWhile_pyStrip, pyStrip_eq_rdropWhile]
  exact List.rdropWhile_idempotent _ _

lemma stripLeadingEnum_of_not_digit (s : List Char)
    (h : startsWithDigit s = false) : stripLeadingEnum s = s := by
  simp [stripLeadingEnum, h]

lemma replaceChar_nil (c : Char) (r : List Char) : replaceChar c r [] = [] := rfl

lemma replaceChar_cons (c : Char) (r : List Char) (x : Char) (xs : List Char) :
    replaceChar c r (x :: xs) = (if x = c then r else [x]) ++ replaceChar c r xs := by
  simp [replaceChar]

lemma replaceChar_append (c : Char) (r : List Char) (l1 l2 : List Char) :
    replaceChar c r (l1 ++ l2) = replaceChar c r l1 ++ replaceChar c r l2 := by
  simp [replaceChar]

lemma get_wrapped_text_append (l1 l2 : List Char) :
    get_wrapped_text (l1 ++ l2) = get_wrapped_text l1 ++ get_wrapped_text l2 := by
  simp [get_wrapped_text, replaceChar_append]

lemma escapeSpec_append (l1 l2 : List Char) :
    escapeSpec (l1 ++ l2) = escapeSpec l1 ++ escapeSpec l2 := by
  simp [escapeSpec]

lemma get_wrapped_text_singleton_eq (x : Char) :
    get_wrapped_text [x] = escapeSpec [x] := by
  by_cases h1 : x = '&'
  · subst h1; decide
  by_cases h2 : x = '<'
  · subst h2; decide
  by_cases h3 : x = '>'
  · subst h3; decide
  by_cases h4 : x = '\n'
  · subst h4; decide
  simp [get_wrapped_text, escapeSpec, replaceChar, h1, h2, h3, h4]

lemma get_wrapped_text_eq_escapeSpec (l : List Char) :
    get_wrapped_text l = escapeSpec l := by
  induction l with
  | nil => rfl
  | cons x xs ih =>
    rw [show x :: xs = [x] ++ xs from rfl, get_wrapped_text_append,
      escapeSpec_append, ih, get_wrapped_text_singleton_eq]

/-- The cell of the full-report matrix at body row `j` (original column
`j`) and record column `i` (document column `i + 2`). -/
def matrixRecordCell (columns : List (List Char))
    (records : List (List (List Char))) (j i : ℕ) : List Char :=
  ((matrixTable columns records).getD (j + 1) []).getD (i + 2) []

lemma matrixTable_body_row (columns : List (List Char))
    (records : List (List (List Char))) (j : ℕ) (hj : j < columns.length) :
    (matrixTable columns records).getD (j + 1) [] =
      matrixBodyRow columns records j := by
  simp only [matrixTable, List.getD_cons_succ]
  rw [List.getD_eq_getElem _ _ (by simpa using hj)]
  simp

lemma matrixRecordCell_eq (columns : List (List Char))
    (records : List (List (List Char))) (j i : ℕ)
    (hj : j < columns.length) (hi : i < records.length) :
    matrixRecordCell columns records j i = (records.getD i []).getD j [] := by
  rw [matrixRecordCell, matrixTable_body_row _ _ _ hj]
  simp only [matrixBodyRow, List.getD_cons_succ]
  rw [List.getD_eq_getElem _ _ (by simpa using hi)]
  rw [List.getD_eq_getElem _ _ hi]
  simp

lemma individualTable_body_row (schemas vals : List (List Char)) (j : ℕ)
    (hj : j < (bodySchemas schemas).length) :
    (individualTable schemas vals).getD (j + 1) [] =
      individualRow schemas vals j ((bodySchemas schemas).getD j []) := by
  simp only [individualTable, List.getD_cons_succ]
  rw [List.getD_eq_getElem _ _ (by simpa using hj)]
  rw [List.getD_eq_getElem _ _ hj]
  simp [List.enum]

lemma sum_map_add_const (l : List ℚ) (e : ℚ) :
    (l.map (fun w => w + e)).sum = l.sum + l.length * e := by
  induction l with
  | nil => simp
  | cons a t ih => simp [ih]; ring

lemma rawColWidths_length (data : List (List (List Char))) (mw : ℚ) :
    (rawColWidths data mw).length = (data.headD []).length := by
  simp [rawColWidths]

lemma rawColWidths_ge (data : List (List (List Char))) (mw : ℚ) :
    ∀ w ∈ rawColWidths data mw, mw ≤ w := by
  intro w hw
  simp only [rawColWidths, List.mem_map, List.mem_range] at hw
  obtain ⟨i, _, rfl⟩ := hw
  exact le_max_right _ _

lemma calculate_col_widths_eq (first : List (List Char))
    (rest : List (List (List Char))) :
    calculate_col_widths (first :: rest) 612 50 =
      (if (rawColWidths (first :: rest) 50).sum < 532 then
        (if first.length = 0 then none
         else some ((rawColWidths (first :: rest) 50).map
           (fun w => w + (532 - (rawColWidths (first :: rest) 50).sum) /
             (first.length : ℚ))))
      else some (rawColWidths (first :: rest) 50)) := by
  have h : (612 : ℚ) - 80 = 532 := by norm_num
  simp only [calculate_col_widths, h]

lemma calculate_col_widths_spec (data : List (List (List Char)))
    (hne : data ≠ []) (hC : 1 ≤ (data.headD []).length) :
    ∃ ws : List ℚ,
      calculate_col_widths data 612 50 = some ws ∧
      ws.length = (data.headD []).length ∧
      (∀ w ∈ ws, 50 ≤ w) ∧
      ((rawColWidths data 50).sum < 532 → ws.sum = 532) ∧
      (¬ (rawColWidths data 50).sum < 532 → ws = rawColWidths data 50) := by
  obtain ⟨first, rest, rfl⟩ := List.exists_cons_of_ne_nil hne
  simp only [List.headD_cons] at hC ⊢
  have hC' : first.length ≠ 0 := by omega
  have hn0 : (first.length : ℚ) ≠ 0 := Nat.cast_ne_zero.mpr hC'
  have hlen : (rawColWidths (first :: rest) 50).length = first.length := by
    rw [rawColWidths_length, List.headD_cons]
  rw [calculate_col_widths_eq]
  by_cases hlt : (rawColWidths (first :: rest) 50).sum < 532
  · rw [if_pos hlt, if_neg hC']
    have he : (0 : ℚ) ≤ (532 - (rawColWidths (first :: rest) 50).sum) /
        (first.length : ℚ) := by
      apply div_nonneg (by linarith)
      exact Nat.cast_nonneg _
    refine ⟨_, rfl, ?_, ?_, fun _ => ?_, fun h => absurd hlt h⟩
    · rw [List.length_map, hlen]
    · intro w hw
      simp only [List.mem_map] at hw
      obtain ⟨v, hv, rfl⟩ := hw
      have := rawColWidths_ge (first :: rest) 50 v hv
      linarith
    · rw [sum_map_add_const, hlen, ← mul_div_assoc,
        mul_div_cancel_left₀ _ hn0]
      ring
  · rw [if_neg hlt]
    exact ⟨_, rfl, hlen, rawColWidths_ge _ _, fun h => absurd h hlt, fun _ => rfl⟩

/-! ## Claim theorems -/

/-- C1 (confirmed): for every table whose first row has `C ≥ 1` columns,
content-driven planning returns exactly `C` widths, each at least the
minimum width 50; when the raw estimates `max(longest * 6, 50)` sum to
less than the usable width `612 - 80 = 532` the slack is split evenly so
the widths sum to exactly 532; otherwise the widths are the raw estimates
unchanged, and when they exceed 532 the full-report page width grows to
their sum plus 80. -/
theorem C1_content_driven_widths (data : List (List (List Char)))
    (hne : data ≠ []) (hC : 1 ≤ (data.headD []).length) :
    ∃ ws : List ℚ,
      calculate_col_widths data 612 50 = some ws ∧
      ws.length = (data.headD []).length ∧
      (∀ w ∈ ws, 50 ≤ w) ∧
      ((rawColWidths data 50).sum < 532 → ws.sum = 532) ∧
      (¬ (rawColWidths data 50).sum < 532 → ws = rawColWidths data 50) ∧
      (532 < (rawColWidths data 50).sum →
        (planLayout data false).map DocGeometry.pageWidth =
          some ((rawColWidths data 50).sum + 80)) := by
  obtain ⟨ws, h1, h2, h3, h4, h5⟩ := calculate_col_widths_spec data hne hC
  refine ⟨ws, h1, h2, h3, h4, h5, fun hgt => ?_⟩
  have hws : ws = rawColWidths data 50 := h5 (by linarith)
  simp only [planLayout, Bool.false_eq_true, if_false, h1, Option.map_map]
  simp only [Option.map_some', Function.comp_apply, hws]
  rw [if_pos (by linarith)]

/-- C1 witness: the theorem applied to a one-column table. -/
theorem C1_witness :
    ∃ ws : List ℚ,
      calculate_col_widths [["ab".data]] 612 50 = some ws ∧
      ws.length = ([["ab".data]].headD []).length ∧
      (∀ w ∈ ws, 50 ≤ w) ∧
      ((rawColWidths [["ab".data]] 50).sum < 532 → ws.sum = 532) ∧
      (¬ (rawColWidths [["ab".data]] 50).sum < 532 →
        ws = rawColWidths [["ab".data]] 50) ∧
      (532 < (rawColWidths [["ab".data]] 50).sum →
        (planLayout [["ab".data]] false).map DocGeometry.pageWidth =
          some ((rawColWidths [["ab".data]] 50).sum + 80)) :=
  C1_content_driven_widths [["ab".data]] (by decide) (by decide)

/-- C3 (amended): the planner is total — no division by zero, modelled as
no `none` — on every table whose first row has at least one column, and in
particular on every full-report matrix table the program builds (whose
header row always has `2 + N ≥ 2` entries).  Degenerate tables do crash it
(see the counterexample), but the program never passes one. -/
theorem C3_planner_totality_amended :
    (∀ data : List (List (List Char)), data ≠ [] → 1 ≤ (data.headD []).length →
      ∃ ws, calculate_col_widths data 612 50 = some ws)
    ∧ (∀ (columns : List (List Char)) (records : List (List (List Char))),
      ∃ ws, calculate_col_widths (matrixTable columns records) 612 50 = some ws) := by
  constructor
  · intro data hne hC
    obtain ⟨ws, h1, _⟩ := calculate_col_widths_spec data hne hC
    exact ⟨ws, h1⟩
  · intro columns records
    have hne : matrixTable columns records ≠ [] := by simp [matrixTable]
    have hC : 1 ≤ ((matrixTable columns records).headD []).length := by
      simp [matrixTable, matrixHeader]
    obtain ⟨ws, h1, _⟩ := calculate_col_widths_spec _ hne hC
    exact ⟨ws, h1⟩

/-- C3 (counterexample): `calculate_col_widths` does not short-circuit on
degenerate tables — a zero-row table raises `IndexError` at `data[0]` and
a zero-column table raises `ZeroDivisionError` at `extra = ... / num_cols`
(both modelled as `none`), contradicting the claimed totality. -/
theorem C3_counterexample :
    calculate_col_widths [] 612 50 = none ∧
    calculate_col_widths [([] : List (List Char))] 612 50 = none := by
  refine ⟨rfl, ?_⟩
  norm_num [calculate_col_widths, rawColWidths]

/-- C3 witness: totality applied to a concrete matrix-shaped header row. -/
theorem C3_witness :
    ∃ ws, calculate_col_widths
      [["Sl. No.".data, "Particulars".data, "Rec 1".data]] 612 50 = some ws :=
  C3_planner_totality_amended.1 _ (by decide) (by decide)

/-- C4 (amended): `clean_particulars` strips one leading numeric marker
and trims surrounding whitespace.  It is idempotent on every input whose
cleaned form does not begin with a digit, and every string with no leading
digit and no surrounding whitespace is a fixed point; the spec's three
examples hold. -/
theorem C4_clean_particulars_amended :
    (∀ s : List Char, startsWithDigit (clean_particulars s) = false →
      clean_particulars (clean_particulars s) = clean_particulars s)
    ∧ (∀ s : List Char, startsWithDigit s = false → pyStrip s = s →
      clean_particulars s = s)
    ∧ clean_particulars ("Name of Candidate".data) = "Name of Candidate".data
    ∧ clean_particulars ("3. Name".data) = "Name".data
    ∧ clean_particulars ("10) Age".data) = "Age".data := by
  refine ⟨fun s h => ?_, fun s h1 h2 => ?_, by decide, by decide, by decide⟩
  · show pyStrip (stripLeadingEnum (clean_particulars s)) = clean_particulars s
    rw [stripLeadingEnum_of_not_digit _ h]
    exact pyStrip_idem _
  · show pyStrip (stripLeadingEnum s) = s
    rw [stripLeadingEnum_of_not_digit _ h1, h2]

/-- C4 (counterexample): stripping is not idempotent — a second marker
survives the first pass and is stripped by the second — and a string with
no leading marker but trailing whitespace is not returned unchanged. -/
theorem C4_counterexample :
    clean_particulars (clean_particulars ("1. 2. Name".data)) ≠
      clean_particulars ("1. 2. Name".data)
    ∧ clean_particulars ("Name ".data) ≠ "Name ".data := by
  exact ⟨by decide, by decide⟩

/-- C4 witness: the amended idempotence applied at a concrete input. -/
theorem C4_witness :
    clean_particulars (clean_particulars ("Hello World".data)) =
      clean_particulars ("Hello World".data) :=
  C4_clean_particulars_amended.1 ("Hello World".data) (by decide)

/-- C5 (confirmed): whenever the cleaned label contains the fixed phrase
`"I hereby certify"`, the rendered response value is the constant `"Yes"`,
for every raw value (including the missing-value marker and the empty
string), and the sanitized cell content placed in the document is exactly
`"Yes"`. -/
theorem C5_certification_override (schema rawVal : List Char)
    (h : occursIn ("I hereby certify".data) (clean_particulars schema) = true) :
    renderResponse schema rawVal = "Yes".data ∧
    get_wrapped_text (renderResponse schema rawVal) = "Yes".data := by
  have hr : renderResponse schema rawVal = "Yes".data := by
    simp [renderResponse, h]
  exact ⟨hr, by rw [hr]; decide⟩

/-- C5 witness: the override at a concrete certification label with the
missing-value marker as raw value. -/
theorem C5_certification_witness :
    renderResponse ("20. I hereby certify that the above information is true".data)
        ("nan".data) = "Yes".data ∧
    get_wrapped_text (renderResponse
        ("20. I hereby certify that the above information is true".data)
        ("nan".data)) = "Yes".data :=
  C5_certification_override _ _ (by decide)

/-- C2 (confirmed): in fixed-form (individual) mode the planner ignores the
table content entirely: every fixed-form document gets page size A4
portrait, uniform 40pt margins, and column widths that are exactly the
fractions 8/100, 57/100 and 35/100 of the usable width `A4_width - 80`. -/
theorem C2_fixed_form_geometry :
    (∀ d1 d2 : List (List (List Char)), planLayout d1 true = planLayout d2 true)
    ∧ (∀ d : List (List (List Char)), planLayout d true =
        some { pageWidth := A4_width, pageHeight := A4_height,
               leftMargin := 40, rightMargin := 40, topMargin := 40,
               bottomMargin := 40,
               colWidths := [(A4_width - 80) * (8/100), (A4_width - 80) * (57/100),
                             (A4_width - 80) * (35/100)] }) :=
  ⟨fun _ _ => rfl, fun _ => rfl⟩

/-- C7 (confirmed): `generate_pdf_report` always returns normally — either
the document is built or a generation error naming the intended output
path is logged — and the batch loop processes every record independently,
so one failing record changes nothing for its siblings. -/
theorem C7_error_containment :
    (∀ (outcome : Except (List Char) Unit) (path : List Char),
      generate_pdf_report outcome path = GenResult.ok ∨
      generate_pdf_report outcome path = GenResult.errorLogged path)
    ∧ (∀ (e path : List Char),
      generate_pdf_report (Except.error e) path = GenResult.errorLogged path)
    ∧ (∀ (pre post : List (Except (List Char) Unit × List Char)) (job : _),
      batchGenerate (pre ++ job :: post) =
        batchGenerate pre ++ generate_pdf_report job.1 job.2 :: batchGenerate post)
    ∧ (∀ jobs : List (Except (List Char) Unit × List Char),
      (batchGenerate jobs).length = jobs.length) := by
  refine ⟨fun outcome path => ?_, fun e path => rfl, fun pre post job => ?_,
    fun jobs => ?_⟩
  · cases outcome with
    | ok u => exact Or.inl rfl
    | error e => exact Or.inr rfl
  · simp [batchGenerate]
  · simp [batchGenerate]

/-- C6 (amended): the case-insensitive `"nan"` marker normalizes to the
empty string and every other value passes through unchanged — but only in
the places the code applies the normalization: the individual-record
response cells and the footer mobile field.  The full-report matrix cells
receive the raw record strings unchanged (no `nan` normalization). -/
theorem C6_nan_normalization_amended :
    (∀ v : List Char, pyLower v = "nan".data → normalizeVal v = [])
    ∧ (∀ v : List Char, pyLower v ≠ "nan".data → normalizeVal v = v)
    ∧ (∀ schema rawVal : List Char,
        occursIn ("I hereby certify".data) (clean_particulars schema) = false →
        renderResponse schema rawVal = normalizeVal rawVal)
    ∧ (∀ schemas vals : List (List Char),
        pyLower (footerField schemas vals (col_mobile schemas)) = "nan".data →
        footerMobileField schemas vals = [])
    ∧ (∀ (columns : List (List Char)) (records : List (List (List Char)))
        (j i : ℕ), j < columns.length → i < records.length →
        matrixRecordCell columns records j i = (records.getD i []).getD j []) := by
  refine ⟨fun v h => ?_, fun v h => ?_, fun schema rawVal h => ?_,
    fun schemas vals h => ?_,
    fun c r j i hj hi => matrixRecordCell_eq c r j i hj hi⟩
  · simp [normalizeVal, h]
  · simp [normalizeVal, h]
  · simp [renderResponse, h]
  · simp [footerMobileField, normalizeVal, h]

/-- C6 (counterexample): a full-report matrix value cell whose raw value
is the marker `"nan"` is rendered as `"nan"`, not as the empty string —
the claim's extension to the full-report matrix cells fails. -/
theorem C6_counterexample :
    matrixRecordCell ["Q1".data] [["nan".data]] 0 0 = "nan".data ∧
    ("nan".data : List Char) ≠ [] :=
  ⟨by decide, by decide⟩

/-- C6 witness: a case variant of the marker normalizes to empty. -/
theorem C6_witness : normalizeVal ("NaN".data) = [] :=
  C6_nan_normalization_amended.1 ("NaN".data) (by decide)

/-- C8 (amended): `get_wrapped_text` is exactly the one-pass escape that
expands every character independently (`&`→`&amp;`, `<`→`&lt;`,
`>`→`&gt;`, newline→`<br/>`), so escaping `&` first means no inserted
escape is re-escaped; and every particulars/response cell of the
individual-record table is produced by it.  The full-report matrix cells,
by contrast, are unsanitized raw strings (see the counterexample). -/
theorem C8_sanitization_amended :
    (∀ l : List Char, get_wrapped_text l = escapeSpec l)
    ∧ (∀ schemas vals : List (List Char), ∀ j : ℕ,
        j < (bodySchemas schemas).length →
        ((individualTable schemas vals).getD (j+1) []).getD 1 [] =
          get_wrapped_text (clean_particulars ((bodySchemas schemas).getD j [])) ∧
        ((individualTable schemas vals).getD (j+1) []).getD 2 [] =
          get_wrapped_text (renderResponse ((bodySchemas schemas).getD j [])
            (lookupVal schemas vals ((bodySchemas schemas).getD j [])))) := by
  refine ⟨get_wrapped_text_eq_escapeSpec, fun schemas vals j hj => ?_⟩
  rw [individualTable_body_row schemas vals j hj]
  simp [individualRow, List.getD_cons_succ, List.getD_cons_zero]

/-- C8 (counterexample): a full-report matrix cell containing `<` and `&`
is placed in the document without any escaping, so the sanitization
invariant does not hold for the full-report matrix table. -/
theorem C8_counterexample :
    matrixRecordCell ["Q2".data] [["a<b & c".data]] 0 0 = "a<b & c".data ∧
    matrixRecordCell ["Q2".data] [["a<b & c".data]] 0 0 ≠
      get_wrapped_text ("a<b & c".data) :=
  ⟨by decide, by decide⟩

/-- C8 witness: the sanitized individual-record cells at a concrete
input. -/
theorem C8_witness :
    ((individualTable ["Q".data] ["v<1".data]).getD 1 []).getD 1 [] =
      get_wrapped_text (clean_particulars ((bodySchemas ["Q".data]).getD 0 [])) ∧
    ((individualTable ["Q".data] ["v<1".data]).getD 1 []).getD 2 [] =
      get_wrapped_text (renderResponse ((bodySchemas ["Q".data]).getD 0 [])
        (lookupVal ["Q".data] ["v<1".data] ((bodySchemas ["Q".data]).getD 0 []))) :=
  C8_sanitization_amended.2 ["Q".data] ["v<1".data] 0 (by decide)

/-- C9 (confirmed): `find_key` matches by substring against the lowered
column names (case-insensitive), trying keywords in priority order with
the first match winning; it returns `none` exactly when no keyword occurs
in any column name, the venue keywords are tried in the order
`"name of exam venue"`, `"venue"`, `"center"`, and an unmatched role's
footer field renders blank while a matched role yields the row's value. -/
theorem C9_field_matching :
    (∀ (keywords : List (List Char)) (cols_map : List (List Char × List Char)),
      find_key cols_map keywords = none ↔
        ∀ k ∈ keywords, ∀ p ∈ cols_map, occursIn k p.1 = false)
    ∧ (∀ (k : List Char) (keywords : List (List Char))
        (cols_map : List (List Char × List Char)) (p : List Char × List Char),
        cols_map.find? (fun q => occursIn k q.1) = some p →
        find_key cols_map (k :: keywords) = some p.2)
    ∧ (∀ (k : List Char) (keywords : List (List Char))
        (cols_map : List (List Char × List Char)),
        cols_map.find? (fun q => occursIn k q.1) = none →
        find_key cols_map (k :: keywords) = find_key cols_map keywords)
    ∧ venueKeywords = ["name of exam venue".data, "venue".data, "center".data]
    ∧ (∀ schemas vals : List (List Char),
        footerField schemas vals none = [] ∧
        ∀ c, footerField schemas vals (some c) = lookupVal schemas vals c) := by
  refine ⟨fun keywords cols_map => ?_, fun k keywords cols_map p h => ?_,
    fun k keywords cols_map h => ?_, rfl, fun schemas vals => ⟨rfl, fun c => rfl⟩⟩
  · induction keywords with
    | nil => simp [find_key]
    | cons k ks ih =>
      simp only [find_key, List.findSome?_cons] at ih ⊢
      cases hf : cols_map.find? (fun q => occursIn k q.1) with
      | none =>
        rw [List.find?_eq_none] at hf
        simp only [hf, Option.map_none']
        rw [List.forall_mem_cons]
        constructor
        · intro h
          exact ⟨fun p hp => by simpa using hf p hp, ih.mp h⟩
        · intro h
          exact ih.mpr h.2
      | some p =>
        have hmem := List.mem_of_find?_eq_some hf
        have hocc := List.find?_some hf
        simp only [hf, Option.map_some']
        constructor
        · intro h; cases h
        · intro h
          have hk := h k (by simp) p hmem
          rw [hk] at hocc
          cases hocc
  · simp [find_key, List.findSome?_cons, h]
  · simp [find_key, List.findSome?_cons, h]

/-- C9 witness: a matched venue keyword returns the original column, the
matched footer field yields the row's value, and an unmatched role's
footer field is blank. -/
theorem C9_witness :
    find_key [("exam venue".data, "Exam Venue".data)]
      ("venue".data :: ["center".data]) =
      some (("exam venue".data, "Exam Venue".data)).2 :=
  C9_field_matching.2.1 ("venue".data) ["center".data] _ _ (by decide)

/-- C10 (confirmed): every row of an individual-record table has exactly
3 entries; the body consists of exactly the schema columns not matched to
a footer role (name, venue, date, signature, mobile); the sequence-number
column holds the consecutive integers starting at 1; every row of the
full-report matrix has `2 + N` entries (`N` the number of records) and the
matrix header row is `["Sl. No.", "Particulars", "Rec 1", ..., "Rec N"]`. -/
theorem C10_table_shapes :
    (∀ schemas vals : List (List Char), ∀ r ∈ individualTable schemas vals,
      r.length = 3)
    ∧ (∀ (schemas : List (List Char)) (c : List Char),
        c ∈ bodySchemas schemas ↔ c ∈ schemas ∧ isExcluded schemas c = false)
    ∧ (∀ (schemas : List (List Char)) (c : List Char),
        isExcluded schemas c = true ↔
          (col_name schemas = some c ∨ col_venue schemas = some c ∨
           col_date schemas = some c ∨ col_signature schemas = some c ∨
           col_mobile schemas = some c))
    ∧ (∀ schemas vals : List (List Char), ∀ j : ℕ,
        j < (bodySchemas schemas).length →
        ((individualTable schemas vals).getD (j+1) []).getD 0 [] =
          (Nat.repr (j+1)).data)
    ∧ (∀ (columns : List (List Char)) (records : List (List (List Char))),
        ∀ r ∈ matrixTable columns records, r.length = 2 + records.length)
    ∧ (∀ (columns : List (List Char)) (records : List (List (List Char))),
        (matrixTable columns records).headD [] =
          "Sl. No.".data :: "Particulars".data ::
            (List.range records.length).map
              (fun i => "Rec ".data ++ (Nat.repr (i+1)).data)) := by
  refine ⟨fun schemas vals r hr => ?_, fun schemas c => ?_, fun schemas c => ?_,
    fun schemas vals j hj => ?_, fun columns records r hr => ?_,
    fun columns records => rfl⟩
  · rcases List.mem_cons.mp hr with h | h
    · subst h; rfl
    · simp only [List.mem_map] at h
      obtain ⟨p, _, rfl⟩ := h
      rfl
  · simp [bodySchemas, List.mem_filter]
  · simp [isExcluded, excludedCols]
  · rw [individualTable_body_row schemas vals j hj]
    rfl
  · rcases List.mem_cons.mp hr with h | h
    · subst h; simp [matrixHeader]; omega
    · simp only [List.mem_map] at h
      obtain ⟨p, _, rfl⟩ := h
      simp [matrixBodyRow]; omega

/-- C10 witness: the shape facts at a concrete one-field record. -/
theorem C10_witness :
    ((individualTable ["Q9".data] ["val".data]).getD 1 []).getD 0 [] =
      (Nat.repr 1).data :=
  C10_table_shapes.2.2.2.1 ["Q9".data] ["val".data] 0 (by decide)

end CsvToPdf
